import Mathlib

/-
Verification of the IKeybind chorded-keybind resolver.

The development shallowly embeds the C++ template class `IKeybind` from
`src/IKeybind.h`.  Fixed-capacity `std::array` fields become total functions
out of `Nat` together with explicit capacity fields; the per-cycle mutation of
`update()` becomes explicit state passing; the two loops of `searchKeybind()`
become `List.foldl` over `List.range`.  The external `IPushButton`
collaborator (not part of the repository) is modelled from the spec.
-/

/-- Modelled from the spec: the external `IPushButton` key-state collaborator
(§6 of the spec), reduced to its read-only query surface: a stable numeric
identifier, the current state as a bitmask, and the time of press.  The class
itself is not in the repository; only this interface is consumed. -/
structure IPushButton where
  id : Nat
  state : Nat
  pushTime : Nat

/-- Modelled from the spec: `eState::none` — bitmask-composable state
enumeration of the external collaborator; `none` is the empty mask. -/
def eState.noKey : Nat := 0

/-- Modelled from the spec: `eState::idle` bit. -/
def eState.idle : Nat := 1

/-- Modelled from the spec: `eState::push` bit. -/
def eState.push : Nat := 2

/-- Modelled from the spec: `eState::hold` bit. -/
def eState.hold : Nat := 4

/-- Modelled from the spec: `eState::delay` bit. -/
def eState.delay : Nat := 8

/-- Modelled from the spec: `eState::release` bit. -/
def eState.release : Nat := 16

/-- The state of an `IKeybind<NKey_, NEvent_, KbMax_>` object.  The template
parameters `Key_Count`, `Event_Count`, `Keybind_Max` are carried as fields;
each `std::array` member is embedded as a total function (entries beyond the
capacity are irrelevant padding). -/
structure IKeybind where
  Key_Count : Nat
  Event_Count : Nat
  Keybind_Max : Nat
  aKey : Nat → IPushButton
  aKeybind : Nat → Nat → Nat
  aKeybindSize : Nat → Nat
  aPrimaryKeyState : Nat → Nat
  aEventOccurred : Nat → Bool
  aUsedAsModifier : Nat → Bool

/-- `IKeybind::isValidSequence`: every stored position `j` from 1 to size-1
must be in an active state (`push | hold | delay`) and pressed no later than
position `j-1`; the primary key (position 0) must not be in state `none`. -/
def isValidSequence (kb : IKeybind) (event_idx : Nat) : Bool :=
  ((List.range' 1 (kb.aKeybindSize event_idx - 1)).all (fun j =>
    ((kb.aKey (kb.aKeybind event_idx j)).state &&&
        (eState.push ||| eState.hold ||| eState.delay) != 0)
    && decide ((kb.aKey (kb.aKeybind event_idx j)).pushTime ≤
        (kb.aKey (kb.aKeybind event_idx (j - 1))).pushTime)))
  && ((kb.aKey (kb.aKeybind event_idx 0)).state != eState.noKey)

/-- `IKeybind::isUsedAsModifier`. -/
def isUsedAsModifier (kb : IKeybind) (key_idx : Nat) : Bool :=
  kb.aUsedAsModifier key_idx

/-- `IKeybind::isEmptyKeybind`. -/
def isEmptyKeybind (kb : IKeybind) (event_idx : Nat) : Bool :=
  kb.aKeybindSize event_idx == 0

/-- `IKeybind::markModifiersAsUsed`: set the used-as-modifier flag of every
stored position 1..size-1 of the given event. -/
def markModifiersAsUsed (kb : IKeybind) (event_idx : Nat) : Nat → Bool :=
  fun k => kb.aUsedAsModifier k ||
    (List.range' 1 (kb.aKeybindSize event_idx - 1)).any
      (fun j => kb.aKeybind event_idx j == k)

/-- One iteration of the candidate-search loop of `IKeybind::searchKeybind`
(the loop body for definition slot `i`, acting on the scratch table
`aKeyBestEventIdx`, here `best`; the table stores event index + 1, with 0
meaning "no event found yet"). -/
def searchKeybindStep (kb : IKeybind) (best : Nat → Nat) (i : Nat) : Nat → Nat :=
  if isEmptyKeybind kb i then best
  else if best (kb.aKeybind i 0) ≠ 0 ∧
      kb.aKeybindSize i < kb.aKeybindSize (best (kb.aKeybind i 0) - 1) then best
  else if best (kb.aKeybind i 0) ≠ 0 ∧
      kb.aKeybindSize i = kb.aKeybindSize (best (kb.aKeybind i 0) - 1) ∧
      kb.aPrimaryKeyState i &&& (kb.aKey (kb.aKeybind i 0)).state = 0 then best
  else if isUsedAsModifier kb (kb.aKeybind i 0) then best
  else if isValidSequence kb i then
    fun k => if k = kb.aKeybind i 0 then i + 1 else best k
  else best

/-- The completed candidate-search loop of `IKeybind::searchKeybind`:
fold the loop body over all event slots, starting from the zero-initialized
scratch table. -/
def searchPass (kb : IKeybind) : Nat → Nat :=
  (List.range kb.Event_Count).foldl (searchKeybindStep kb) (fun _ => 0)

/-- One iteration of the finalization loop of `IKeybind::searchKeybind`
(the loop body for key index `t`): if a best event is recorded for `t` and
`t`'s state statisfies that event's required primary state, mark the event's
modifiers as used and mark the event as occurred. -/
def finalizeStep (best : Nat → Nat) (kb : IKeybind) (t : Nat) : IKeybind :=
  if best t = 0 then kb
  else if kb.aPrimaryKeyState (best t - 1) &&& (kb.aKey t).state = 0 then kb
  else
    { kb with
      aUsedAsModifier := markModifiersAsUsed kb (best t - 1),
      aEventOccurred := fun e => if e = best t - 1 then true else kb.aEventOccurred e }

/-- `IKeybind::searchKeybind`: run the candidate search, then the
finalization loop over all key indices. -/
def searchKeybind (kb : IKeybind) : IKeybind :=
  (List.range kb.Key_Count).foldl (finalizeStep (searchPass kb)) kb

/-- The first half of `IKeybind::update`: reset all event-occurred flags,
refresh every key (the external collaborator's refresh result is passed in as
the function `ks`, giving each key's post-refresh value), and clear the
used-as-modifier flag of every key whose refreshed state is `none` or
includes `idle`. -/
def refreshKeys (kb : IKeybind) (ks : Nat → IPushButton) : IKeybind :=
  { kb with
    aKey := ks,
    aEventOccurred := fun _ => false,
    aUsedAsModifier := fun i =>
      if i < kb.Key_Count ∧
          ((ks i).state = eState.noKey ∨ (ks i).state &&& eState.idle ≠ 0) then false
      else kb.aUsedAsModifier i }

/-- `IKeybind::update`: refresh keys and decay exclusivity flags, then run
the core keybind detection. -/
def update (kb : IKeybind) (ks : Nat → IPushButton) : IKeybind :=
  searchKeybind (refreshKeys kb ks)

/-- `IKeybind::isEvent`: false for an out-of-range index, otherwise the
slot's occurred flag. -/
def isEvent (kb : IKeybind) (event_idx : Nat) : Bool :=
  if kb.Event_Count ≤ event_idx then false else kb.aEventOccurred event_idx

/-- `IKeybind::isAnyEvent`: true iff some slot's occurred flag is set. -/
def isAnyEvent (kb : IKeybind) : Bool :=
  (List.range kb.Event_Count).any (fun e => kb.aEventOccurred e)

/-- `IKeybind::clear`: zero-fill every definition, size, required state,
occurred flag and used-as-modifier flag (the keys themselves are retained). -/
def clear (kb : IKeybind) : IKeybind :=
  { kb with
    aKeybind := fun _ _ => 0,
    aKeybindSize := fun _ => 0,
    aPrimaryKeyState := fun _ => eState.noKey,
    aEventOccurred := fun _ => false,
    aUsedAsModifier := fun _ => false }

/-- The two error conditions `IKeybind::assign` can signal
(`std::out_of_range` and `std::invalid_argument`). -/
inductive AssignError where
  | outOfRange
  | invalidArgument
deriving DecidableEq

/-- The inner lookup loop of `IKeybind::assign`: linear search over all
managed keys for the first one whose identifier equals `key_id`. -/
def findKeyIdx (kb : IKeybind) (key_id : Nat) : Option Nat :=
  (List.range kb.Key_Count).find? (fun j => (kb.aKey j).id == key_id)

/-- A single write `aKeybind[e][p] = j`. -/
def writeKeybind (kb : IKeybind) (e p j : Nat) : IKeybind :=
  { kb with
    aKeybind := fun e2 p2 => if e2 = e ∧ p2 = p then j else kb.aKeybind e2 p2 }

/-- The outer loop of `IKeybind::assign`: resolve each supplied id (the `i`-th
remaining one) to a key index and store it at position `N - i - 1`; signal
`invalid_argument` at the first id with no matching key, leaving the partial
writes in place. -/
def assignIds (e N : Nat) : List Nat → Nat → IKeybind → Option AssignError × IKeybind
  | [], _, kb => (none, kb)
  | key_id :: rest, i, kb =>
    match findKeyIdx kb key_id with
    | some j => assignIds e N rest (i + 1) (writeKeybind kb e (N - i - 1) j)
    | none => (some AssignError.invalidArgument, kb)

/-- `IKeybind::assign`: bounds checks, then the id-resolution loop, then (on
success) record the required primary state and the size.  The thrown C++
exception is embedded as the first component; the second component is the
object's state after the call (also after a throw, since a throw leaves the
partial writes in place). -/
def assign (kb : IKeybind) (event_idx : Nat) (key_id : List Nat)
    (key_state : Nat) : Option AssignError × IKeybind :=
  if kb.Event_Count ≤ event_idx then (some AssignError.outOfRange, kb)
  else if kb.Keybind_Max < key_id.length then (some AssignError.outOfRange, kb)
  else
    match assignIds event_idx key_id.length key_id 0 kb with
    | (some err, kb2) => (some err, kb2)
    | (none, kb2) =>
      (none,
        { kb2 with
          aPrimaryKeyState := fun e =>
            if e = event_idx then key_state else kb2.aPrimaryKeyState e,
          aKeybindSize := fun e =>
            if e = event_idx then key_id.length else kb2.aKeybindSize e })

/-! ### Concrete instances used to witness the theorems -/

/-- Two keys: storage index 0 has id 1, index 1 has id 2.  Event 0 is the
chord [id 1, id 2] (primary = index 1, modifier = index 0); event 1 is the
single-key chord [id 1] (primary = index 0).  Both require `push`. -/
def kbBug1 : IKeybind where
  Key_Count := 2
  Event_Count := 2
  Keybind_Max := 2
  aKey := fun _ => { id := 0, state := 0, pushTime := 0 }
  aKeybind := fun e k => if e = 0 ∧ k = 0 then 1 else 0
  aKeybindSize := fun e => if e = 0 then 2 else if e = 1 then 1 else 0
  aPrimaryKeyState := fun e => if e < 2 then eState.push else 0
  aEventOccurred := fun _ => false
  aUsedAsModifier := fun _ => false

/-- Refreshed key states for `kbBug1`: both keys pushed, key 0 at tick 5,
key 1 at tick 6. -/
def ksBug1 : Nat → IPushButton :=
  fun i => if i = 0 then { id := 1, state := eState.push, pushTime := 5 }
           else if i = 1 then { id := 2, state := eState.push, pushTime := 6 }
           else { id := 0, state := 0, pushTime := 0 }

/-- The §8 scenario of the spec: three keys with ids 10, 20, 30 (storage
indices 0, 1, 2); event 0 = chord [10, 20] (primary id 20), event 1 =
chord [20]; both require `push`. -/
def kbSpec8 : IKeybind where
  Key_Count := 3
  Event_Count := 2
  Keybind_Max := 2
  aKey := fun _ => { id := 0, state := 0, pushTime := 0 }
  aKeybind := fun e k => if e = 0 ∧ k = 0 then 1 else if e = 1 ∧ k = 0 then 1 else 0
  aKeybindSize := fun e => if e = 0 then 2 else if e = 1 then 1 else 0
  aPrimaryKeyState := fun e => if e < 2 then eState.push else 0
  aEventOccurred := fun _ => false
  aUsedAsModifier := fun _ => false

/-- Refreshed key states for `kbSpec8`: key 10 pressed at tick 5, key 20 at
tick 6, both still pushed; key 30 untouched. -/
def ksSpec8 : Nat → IPushButton :=
  fun i => if i = 0 then { id := 10, state := eState.push, pushTime := 5 }
           else if i = 1 then { id := 20, state := eState.push, pushTime := 6 }
           else { id := 30, state := 0, pushTime := 0 }

/-- Two single-key definitions (events 0 and 1) sharing primary key 0, both
of chord length 1; used to exercise the equal-length tie-break. -/
def kbTie : IKeybind where
  Key_Count := 1
  Event_Count := 2
  Keybind_Max := 1
  aKey := fun _ => { id := 1, state := eState.push, pushTime := 3 }
  aKeybind := fun _ _ => 0
  aKeybindSize := fun e => if e < 2 then 1 else 0
  aPrimaryKeyState := fun e => if e < 2 then eState.push else 0
  aEventOccurred := fun _ => false
  aUsedAsModifier := fun _ => false

/-- A scratch best-candidate table recording event 0 for primary key 0. -/
def bestTie : Nat → Nat := fun k => if k = 0 then 1 else 0

/-- Two keys; event 0 is the chord [id 1, id 2] (primary = index 1). -/
def kbRev : IKeybind where
  Key_Count := 2
  Event_Count := 1
  Keybind_Max := 2
  aKey := fun _ => { id := 0, state := 0, pushTime := 0 }
  aKeybind := fun e k => if e = 0 ∧ k = 0 then 1 else 0
  aKeybindSize := fun e => if e = 0 then 2 else 0
  aPrimaryKeyState := fun e => if e = 0 then eState.push else 0
  aEventOccurred := fun _ => false
  aUsedAsModifier := fun _ => false

/-- Refreshed key states for `kbRev`: both keys pushed but in reverse of the
declaration order — the modifier (index 0) was pressed at tick 7, after the
primary (index 1) at tick 6. -/
def ksRev : Nat → IPushButton :=
  fun i => if i = 0 then { id := 1, state := eState.push, pushTime := 7 }
           else if i = 1 then { id := 2, state := eState.push, pushTime := 6 }
           else { id := 0, state := 0, pushTime := 0 }

/-- Two keys with ids 10 and 20; event slot 0 already holds a valid
definition of size 1 (the chord [10]). -/
def kbAssign : IKeybind where
  Key_Count := 2
  Event_Count := 2
  Keybind_Max := 2
  aKey := fun i => if i = 0 then { id := 10, state := 0, pushTime := 0 }
                   else { id := 20, state := 0, pushTime := 0 }
  aKeybind := fun _ _ => 0
  aKeybindSize := fun e => if e = 0 then 1 else 0
  aPrimaryKeyState := fun e => if e = 0 then eState.push else 0
  aEventOccurred := fun _ => false
  aUsedAsModifier := fun _ => false

/-- A state in which only event 0's occurred flag is set (capacity 2). -/
def kbQuery : IKeybind where
  Key_Count := 1
  Event_Count := 2
  Keybind_Max := 1
  aKey := fun _ => { id := 1, state := 0, pushTime := 0 }
  aKeybind := fun _ _ => 0
  aKeybindSize := fun _ => 0
  aPrimaryKeyState := fun _ => 0
  aEventOccurred := fun e => e == 0
  aUsedAsModifier := fun _ => false

/-- Two keys; event 0 is the chord [id 1, id 2] (primary = index 1, modifier
= index 0); no flag is set before the cycle. -/
def kbFlag : IKeybind where
  Key_Count := 2
  Event_Count := 1
  Keybind_Max := 2
  aKey := fun _ => { id := 0, state := 0, pushTime := 0 }
  aKeybind := fun e k => if e = 0 ∧ k = 0 then 1 else 0
  aKeybindSize := fun e => if e = 0 then 2 else 0
  aPrimaryKeyState := fun e => if e = 0 then eState.push else 0
  aEventOccurred := fun _ => false
  aUsedAsModifier := fun _ => false

/-- Refreshed key states for `kbFlag`: both keys pushed in declaration order
(key 0 at tick 5, key 1 at tick 6), so event 0 fires and key 0 is consumed
as its modifier. -/
def ksFlag : Nat → IPushButton :=
  fun i => if i = 0 then { id := 1, state := eState.push, pushTime := 5 }
           else if i = 1 then { id := 2, state := eState.push, pushTime := 6 }
           else { id := 0, state := 0, pushTime := 0 }

/-! ### Helper lemmas: the candidate-search pass -/

theorem searchKeybindStep_empty (kb : IKeybind) (best : Nat → Nat) (i : Nat)
    (h : kb.aKeybindSize i = 0) : searchKeybindStep kb best i = best := by
  simp [searchKeybindStep, isEmptyKeybind, h]

theorem foldl_searchStep_skip (kb : IKeybind) :
    ∀ (l : List Nat) (b : Nat → Nat), (∀ e ∈ l, kb.aKeybindSize e = 0) →
      l.foldl (searchKeybindStep kb) b = b := by
  intro l
  induction l with
  | nil => intro b _; rfl
  | cons t l ih =>
    intro b h
    have ht : kb.aKeybindSize t = 0 := h t (List.mem_cons_self t l)
    simp only [List.foldl_cons, searchKeybindStep_empty kb b t ht]
    exact ih b (fun e he => h e (List.mem_cons_of_mem t he))

theorem foldl_searchStep_one (kb : IKeybind) (v : Nat) :
    ∀ (n s : Nat) (b : Nat → Nat), s ≤ v → v < s + n →
      (∀ e, s ≤ e → e < s + n → e ≠ v → kb.aKeybindSize e = 0) →
      (List.range' s n).foldl (searchKeybindStep kb) b = searchKeybindStep kb b v := by
  intro n
  induction n with
  | zero => intro s b hs hv _; omega
  | succ n ih =>
    intro s b hs hv hemp
    by_cases hsv : s = v
    · subst hsv
      simp only [List.range', List.foldl_cons]
      exact foldl_searchStep_skip kb _ _ (fun e he => by
        have := (List.mem_range'_1).1 he
        exact hemp e (by omega) (by omega) (by omega))
    · have hs0 : kb.aKeybindSize s = 0 := hemp s (le_refl s) (by omega) hsv
      simp only [List.range', List.foldl_cons, searchKeybindStep_empty kb b s hs0]
      exact ih (s + 1) b (by omega) (by omega)
        (fun e h1 h2 h3 => hemp e (by omega) (by omega) h3)

theorem foldl_searchStep_two (kb : IKeybind) (u v : Nat) (huv : u < v) :
    ∀ (n s : Nat) (b : Nat → Nat), s ≤ u → v < s + n →
      (∀ e, s ≤ e → e < s + n → e ≠ u → e ≠ v → kb.aKeybindSize e = 0) →
      (List.range' s n).foldl (searchKeybindStep kb) b =
        searchKeybindStep kb (searchKeybindStep kb b u) v := by
  intro n
  induction n with
  | zero => intro s b hs hv _; omega
  | succ n ih =>
    intro s b hs hv hemp
    by_cases hsu : s = u
    · subst hsu
      simp only [List.range', List.foldl_cons]
      exact foldl_searchStep_one kb v n (s + 1) _ (by omega) (by omega)
        (fun e h1 h2 h3 => hemp e (by omega) (by omega) (by omega) h3)
    · have hs0 : kb.aKeybindSize s = 0 := hemp s (le_refl s) (by omega) hsu (by omega)
      simp only [List.range', List.foldl_cons, searchKeybindStep_empty kb b s hs0]
      exact ih (s + 1) b (by omega) (by omega)
        (fun e h1 h2 h3 h4 => hemp e (by omega) (by omega) h3 h4)

theorem searchPass_two (kb : IKeybind) (u v : Nat) (huv : u < v)
    (hv : v < kb.Event_Count)
    (hemp : ∀ e, e < kb.Event_Count → e ≠ u → e ≠ v → kb.aKeybindSize e = 0) :
    searchPass kb = searchKeybindStep kb (searchKeybindStep kb (fun _ => 0) u) v := by
  unfold searchPass
  rw [List.range_eq_range']
  exact foldl_searchStep_two kb u v huv kb.Event_Count 0 _ (by omega) (by omega)
    (fun e h1 h2 h3 h4 => hemp e (by omega) h3 h4)

/-! ### Helper lemmas: the finalization pass -/

theorem finalizeStep_aKey (best : Nat → Nat) (kb : IKeybind) (t : Nat) :
    (finalizeStep best kb t).aKey = kb.aKey := by
  unfold finalizeStep; split_ifs <;> rfl

theorem finalizeStep_aKeybind (best : Nat → Nat) (kb : IKeybind) (t : Nat) :
    (finalizeStep best kb t).aKeybind = kb.aKeybind := by
  unfold finalizeStep; split_ifs <;> rfl

theorem finalizeStep_aKeybindSize (best : Nat → Nat) (kb : IKeybind) (t : Nat) :
    (finalizeStep best kb t).aKeybindSize = kb.aKeybindSize := by
  unfold finalizeStep; split_ifs <;> rfl

theorem finalizeStep_aPrimaryKeyState (best : Nat → Nat) (kb : IKeybind) (t : Nat) :
    (finalizeStep best kb t).aPrimaryKeyState = kb.aPrimaryKeyState := by
  unfold finalizeStep; split_ifs <;> rfl

theorem finalizeStep_occurred (best : Nat → Nat) (kb : IKeybind) (t e : Nat) :
    ((finalizeStep best kb t).aEventOccurred e = true) ↔
    (kb.aEventOccurred e = true ∨ (best t = e + 1 ∧
      kb.aPrimaryKeyState e &&& (kb.aKey t).state ≠ 0)) := by
  unfold finalizeStep
  split_ifs with h1 h2
  · constructor
    · exact fun h => Or.inl h
    · rintro (h | ⟨hb, _⟩)
      · exact h
      · omega
  · constructor
    · exact fun h => Or.inl h
    · rintro (h | ⟨hb, hm⟩)
      · exact h
      · have he : best t - 1 = e := by omega
        rw [he] at h2
        exact absurd h2 hm
  · by_cases he : e = best t - 1
    · simp only [he, if_pos rfl]
      constructor
      · intro _
        exact Or.inr ⟨by omega, h2⟩
      · intro _; rfl
    · simp only [if_neg he]
      constructor
      · exact fun h => Or.inl h
      · rintro (h | ⟨hb, _⟩)
        · exact h
        · omega

theorem finalizeStep_used (best : Nat → Nat) (kb : IKeybind) (t k : Nat) :
    ((finalizeStep best kb t).aUsedAsModifier k = true) ↔
    (kb.aUsedAsModifier k = true ∨ (best t ≠ 0 ∧
      kb.aPrimaryKeyState (best t - 1) &&& (kb.aKey t).state ≠ 0 ∧
      ∃ j, 1 ≤ j ∧ j < kb.aKeybindSize (best t - 1) ∧ kb.aKeybind (best t - 1) j = k)) := by
  unfold finalizeStep
  split_ifs with h1 h2
  · simp [h1]
  · simp only [not_not] at h2
    constructor
    · exact fun h => Or.inl h
    · rintro (h | ⟨_, hm, _⟩)
      · exact h
      · exact absurd h2 hm
  · show markModifiersAsUsed kb (best t - 1) k = true ↔ _
    unfold markModifiersAsUsed
    simp only [Bool.or_eq_true, List.any_eq_true, List.mem_range'_1, beq_iff_eq]
    constructor
    · rintro (h | ⟨j, ⟨hj1, hj2⟩, hk⟩)
      · exact Or.inl h
      · exact Or.inr ⟨h1, h2, j, hj1, by omega, hk⟩
    · rintro (h | ⟨_, _, j, hj1, hj2, hk⟩)
      · exact Or.inl h
      · exact Or.inr ⟨j, ⟨hj1, by omega⟩, hk⟩

theorem finalize_foldl_occurred (best : Nat → Nat) :
    ∀ (l : List Nat) (kb : IKeybind) (e : Nat),
      ((l.foldl (finalizeStep best) kb).aEventOccurred e = true) ↔
      (kb.aEventOccurred e = true ∨ ∃ t ∈ l, best t = e + 1 ∧
        kb.aPrimaryKeyState e &&& (kb.aKey t).state ≠ 0) := by
  intro l
  induction l with
  | nil => intro kb e; simp
  | cons t l ih =>
    intro kb e
    simp only [List.foldl_cons, List.mem_cons]
    rw [ih, finalizeStep_occurred, finalizeStep_aPrimaryKeyState, finalizeStep_aKey]
    constructor
    · rintro ((h | ⟨hb, hm⟩) | ⟨t2, ht2, hb, hm⟩)
      · exact Or.inl h
      · exact Or.inr ⟨t, Or.inl rfl, hb, hm⟩
      · exact Or.inr ⟨t2, Or.inr ht2, hb, hm⟩
    · rintro (h | ⟨t2, (rfl | ht2), hb, hm⟩)
      · exact Or.inl (Or.inl h)
      · exact Or.inl (Or.inr ⟨hb, hm⟩)
      · exact Or.inr ⟨t2, ht2, hb, hm⟩

theorem finalize_foldl_used (best : Nat → Nat) :
    ∀ (l : List Nat) (kb : IKeybind) (k : Nat),
      ((l.foldl (finalizeStep best) kb).aUsedAsModifier k = true) ↔
      (kb.aUsedAsModifier k = true ∨ ∃ t ∈ l, best t ≠ 0 ∧
        kb.aPrimaryKeyState (best t - 1) &&& (kb.aKey t).state ≠ 0 ∧
        ∃ j, 1 ≤ j ∧ j < kb.aKeybindSize (best t - 1) ∧ kb.aKeybind (best t - 1) j = k) := by
  intro l
  induction l with
  | nil => intro kb k; simp
  | cons t l ih =>
    intro kb k
    simp only [List.foldl_cons, List.mem_cons]
    rw [ih, finalizeStep_used, finalizeStep_aPrimaryKeyState, finalizeStep_aKey,
      finalizeStep_aKeybindSize, finalizeStep_aKeybind]
    constructor
    · rintro ((h | ⟨hb, hm, hj⟩) | ⟨t2, ht2, hb, hm, hj⟩)
      · exact Or.inl h
      · exact Or.inr ⟨t, Or.inl rfl, hb, hm, hj⟩
      · exact Or.inr ⟨t2, Or.inr ht2, hb, hm, hj⟩
    · rintro (h | ⟨t2, (rfl | ht2), hb, hm, hj⟩)
      · exact Or.inl (Or.inl h)
      · exact Or.inl (Or.inr ⟨hb, hm, hj⟩)
      · exact Or.inr ⟨t2, ht2, hb, hm, hj⟩

theorem searchKeybind_occurred (kb : IKeybind) (e : Nat) :
    ((searchKeybind kb).aEventOccurred e = true) ↔
    (kb.aEventOccurred e = true ∨ ∃ t, t < kb.Key_Count ∧ searchPass kb t = e + 1 ∧
      kb.aPrimaryKeyState e &&& (kb.aKey t).state ≠ 0) := by
  unfold searchKeybind
  rw [finalize_foldl_occurred]
  simp only [List.mem_range]

theorem searchKeybind_used (kb : IKeybind) (k : Nat) :
    ((searchKeybind kb).aUsedAsModifier k = true) ↔
    (kb.aUsedAsModifier k = true ∨ ∃ t, t < kb.Key_Count ∧ searchPass kb t ≠ 0 ∧
      kb.aPrimaryKeyState (searchPass kb t - 1) &&& (kb.aKey t).state ≠ 0 ∧
      ∃ j, 1 ≤ j ∧ j < kb.aKeybindSize (searchPass kb t - 1) ∧
        kb.aKeybind (searchPass kb t - 1) j = k) := by
  unfold searchKeybind
  rw [finalize_foldl_used]
  simp only [List.mem_range]

/-! ### Helper lemmas: only valid sequences become candidates -/

theorem searchKeybindStep_valid (kb : IKeybind) (b : Nat → Nat) (i : Nat)
    (h : ∀ k, b k ≠ 0 → isValidSequence kb (b k - 1) = true) :
    ∀ k, searchKeybindStep kb b i k ≠ 0 →
      isValidSequence kb (searchKeybindStep kb b i k - 1) = true := by
  unfold searchKeybindStep
  split_ifs with h1 h2 h3 h4 h5
  · exact h
  · exact h
  · exact h
  · exact h
  · intro k hk
    by_cases hkp : k = kb.aKeybind i 0
    · simp only [hkp, if_pos rfl, Nat.add_sub_cancel]
      exact h5
    · simp only [if_neg hkp] at hk ⊢
      exact h k hk
  · exact h

theorem foldl_searchStep_valid (kb : IKeybind) :
    ∀ (l : List Nat) (b : Nat → Nat),
      (∀ k, b k ≠ 0 → isValidSequence kb (b k - 1) = true) →
      ∀ k, (l.foldl (searchKeybindStep kb) b) k ≠ 0 →
        isValidSequence kb ((l.foldl (searchKeybindStep kb) b) k - 1) = true := by
  intro l
  induction l with
  | nil => intro b h; exact h
  | cons t l ih =>
    intro b h
    simp only [List.foldl_cons]
    exact ih _ (searchKeybindStep_valid kb b t h)

theorem searchPass_valid (kb : IKeybind) :
    ∀ k, searchPass kb k ≠ 0 → isValidSequence kb (searchPass kb k - 1) = true := by
  unfold searchPass
  exact foldl_searchStep_valid kb _ _ (fun k hk => absurd rfl hk)

/-! ### Helper lemmas: sequence validation -/

theorem isValidSequence_iff (kb : IKeybind) (e : Nat) :
    isValidSequence kb e = true ↔
    ((∀ j, 1 ≤ j → j < kb.aKeybindSize e →
      ((kb.aKey (kb.aKeybind e j)).state &&&
          (eState.push ||| eState.hold ||| eState.delay) ≠ 0 ∧
        (kb.aKey (kb.aKeybind e j)).pushTime ≤
          (kb.aKey (kb.aKeybind e (j - 1))).pushTime)) ∧
      (kb.aKey (kb.aKeybind e 0)).state ≠ eState.noKey) := by
  unfold isValidSequence
  simp only [Bool.and_eq_true, List.all_eq_true, List.mem_range'_1, bne_iff_ne, ne_eq,
    decide_eq_true_eq, and_imp]
  constructor
  · rintro ⟨hall, hp⟩
    exact ⟨fun j hj1 hj2 => hall j hj1 (by omega), hp⟩
  · rintro ⟨hall, hp⟩
    exact ⟨fun j hj1 hj2 => hall j hj1 (by omega), hp⟩

/-! ### Helper lemmas: assignment -/

theorem assignIds_pres (e N : Nat) :
    ∀ (l : List Nat) (i : Nat) (kb : IKeybind),
      (assignIds e N l i kb).2.Key_Count = kb.Key_Count ∧
      (assignIds e N l i kb).2.Event_Count = kb.Event_Count ∧
      (assignIds e N l i kb).2.Keybind_Max = kb.Keybind_Max ∧
      (assignIds e N l i kb).2.aKey = kb.aKey ∧
      (assignIds e N l i kb).2.aKeybindSize = kb.aKeybindSize ∧
      (assignIds e N l i kb).2.aPrimaryKeyState = kb.aPrimaryKeyState ∧
      (assignIds e N l i kb).2.aEventOccurred = kb.aEventOccurred ∧
      (assignIds e N l i kb).2.aUsedAsModifier = kb.aUsedAsModifier := by
  intro l
  induction l with
  | nil => intro i kb; exact ⟨rfl, rfl, rfl, rfl, rfl, rfl, rfl, rfl⟩
  | cons key_id rest ih =>
    intro i kb
    unfold assignIds
    cases hf : findKeyIdx kb key_id with
    | some j =>
      simp only []
      exact ih (i + 1) (writeKeybind kb e (N - i - 1) j)
    | none => exact ⟨rfl, rfl, rfl, rfl, rfl, rfl, rfl, rfl⟩

theorem assignIds_none_iff (e N : Nat) :
    ∀ (l : List Nat) (i : Nat) (kb : IKeybind),
      ((assignIds e N l i kb).1 = none ↔ ∀ key_id ∈ l, findKeyIdx kb key_id ≠ none) := by
  intro l
  induction l with
  | nil => intro i kb; simp [assignIds]
  | cons key_id rest ih =>
    intro i kb
    unfold assignIds
    cases hf : findKeyIdx kb key_id with
    | some j =>
      simp only [List.mem_cons]
      rw [ih (i + 1) (writeKeybind kb e (N - i - 1) j)]
      constructor
      · rintro h k (rfl | hk)
        · rw [hf]; exact fun hc => Option.noConfusion hc
        · exact h k hk
      · intro h k hk
        exact h k (Or.inr hk)
    | none =>
      simp only [List.mem_cons]
      constructor
      · intro h; exact absurd h (fun hc => Option.noConfusion hc)
      · intro h; exact absurd hf (h key_id (Or.inl rfl))

theorem assignIds_high (e N : Nat) :
    ∀ (l : List Nat) (i : Nat) (kb : IKeybind), i + l.length ≤ N →
      ∀ e2 p, (e2 ≠ e ∨ N - i ≤ p) →
        (assignIds e N l i kb).2.aKeybind e2 p = kb.aKeybind e2 p := by
  intro l
  induction l with
  | nil => intro i kb _ e2 p _; rfl
  | cons key_id rest ih =>
    intro i kb hN e2 p hp
    unfold assignIds
    cases hf : findKeyIdx kb key_id with
    | some j =>
      simp only [List.length_cons] at hN
      have h1 : (assignIds e N rest (i + 1) (writeKeybind kb e (N - i - 1) j)).2.aKeybind e2 p
          = (writeKeybind kb e (N - i - 1) j).aKeybind e2 p := by
        refine ih (i + 1) _ (by omega) e2 p ?_
        rcases hp with h | h
        · exact Or.inl h
        · exact Or.inr (by omega)
      rw [h1]
      unfold writeKeybind
      simp only []
      rw [if_neg]
      rintro ⟨rfl, rfl⟩
      rcases hp with h | h
      · exact h rfl
      · omega
    | none => rfl

theorem assignIds_success_getD (e N : Nat) :
    ∀ (l : List Nat) (i : Nat) (kb kb2 : IKeybind), i + l.length ≤ N →
      assignIds e N l i kb = (none, kb2) →
      ∀ m, m < l.length →
        findKeyIdx kb (l.getD m 0) = some (kb2.aKeybind e (N - (i + m) - 1)) := by
  intro l
  induction l with
  | nil => intro i kb kb2 _ _ m hm; simp at hm
  | cons key_id rest ih =>
    intro i kb kb2 hN h m hm
    unfold assignIds at h
    cases hf : findKeyIdx kb key_id with
    | none =>
      rw [hf] at h
      exact absurd (congrArg Prod.fst h) (fun hc => Option.noConfusion hc)
    | some j =>
      rw [hf] at h
      simp only [List.length_cons] at hN
      have h0 : assignIds e N rest (i + 1) (writeKeybind kb e (N - i - 1) j)
          = (none, kb2) := h
      cases m with
      | zero =>
        have h2 : kb2.aKeybind e (N - (i + 0) - 1)
            = (writeKeybind kb e (N - i - 1) j).aKeybind e (N - i - 1) := by
          have h3 := assignIds_high e N rest (i + 1) (writeKeybind kb e (N - i - 1) j)
            (by omega) e (N - i - 1) (Or.inr (by omega))
          rw [h0] at h3
          simpa using h3
        rw [h2]
        unfold writeKeybind
        simp only [and_self, if_true]
        exact hf
      | succ m2 =>
        have heq : N - (i + 1 + m2) - 1 = N - (i + (m2 + 1)) - 1 := by omega
        have h4 := ih (i + 1) (writeKeybind kb e (N - i - 1) j) kb2 (by omega) h m2
          (by simpa using hm)
        rw [heq] at h4
        exact h4

theorem assignIds_fail (e N : Nat) :
    ∀ (l : List Nat) (i : Nat) (kb kb2 : IKeybind) (err : AssignError),
      i + l.length ≤ N →
      assignIds e N l i kb = (some err, kb2) →
      err = AssignError.invalidArgument ∧
      ∃ m, m < l.length ∧ findKeyIdx kb (l.getD m 0) = none ∧
        (∀ e2 p, e2 ≠ e → kb2.aKeybind e2 p = kb.aKeybind e2 p) ∧
        (∀ p, p < N - i - m → kb2.aKeybind e p = kb.aKeybind e p) ∧
        (∀ p, N - i ≤ p → kb2.aKeybind e p = kb.aKeybind e p) := by
  intro l
  induction l with
  | nil =>
    intro i kb kb2 err _ h
    exact absurd (congrArg Prod.fst h) (fun hc => Option.noConfusion hc)
  | cons key_id rest ih =>
    intro i kb kb2 err hN h
    unfold assignIds at h
    simp only [List.length_cons] at hN
    cases hf : findKeyIdx kb key_id with
    | none =>
      rw [hf] at h
      have h1 : err = AssignError.invalidArgument := by
        have := congrArg Prod.fst h
        simpa using this.symm
      have h2 : kb2 = kb := by
        have := congrArg Prod.snd h
        exact this.symm
      subst h2
      refine ⟨h1, 0, by simp, hf, fun _ _ _ => rfl, fun _ _ => rfl, fun _ _ => rfl⟩
    | some j =>
      rw [hf] at h
      obtain ⟨h1, m2, hm2, hfind, hoff, hlow, hhigh⟩ :=
        ih (i + 1) (writeKeybind kb e (N - i - 1) j) kb2 err (by omega) h
      refine ⟨h1, m2 + 1, by simpa using hm2, hfind, ?_, ?_, ?_⟩
      · intro e2 p he2
        rw [hoff e2 p he2]
        unfold writeKeybind
        simp only []
        rw [if_neg]
        rintro ⟨rfl, _⟩
        exact he2 rfl
      · intro p hp
        rw [hlow p (by omega)]
        unfold writeKeybind
        simp only []
        rw [if_neg]
        rintro ⟨_, rfl⟩
        omega
      · intro p hp
        rw [hhigh p (by omega)]
        unfold writeKeybind
        simp only []
        rw [if_neg]
        rintro ⟨_, rfl⟩
        omega

theorem findKeyIdx_eq_none_iff (kb : IKeybind) (key_id : Nat) :
    findKeyIdx kb key_id = none ↔
      ∀ j, j < kb.Key_Count → (kb.aKey j).id ≠ key_id := by
  unfold findKeyIdx
  rw [List.find?_eq_none]
  simp [List.mem_range]

/-! ### Helper lemmas: the refresh phase -/

theorem refreshKeys_aKey (kb : IKeybind) (ks : Nat → IPushButton) :
    (refreshKeys kb ks).aKey = ks := rfl

theorem refreshKeys_aKeybind (kb : IKeybind) (ks : Nat → IPushButton) :
    (refreshKeys kb ks).aKeybind = kb.aKeybind := rfl

theorem refreshKeys_aKeybindSize (kb : IKeybind) (ks : Nat → IPushButton) :
    (refreshKeys kb ks).aKeybindSize = kb.aKeybindSize := rfl

theorem refreshKeys_aPrimaryKeyState (kb : IKeybind) (ks : Nat → IPushButton) :
    (refreshKeys kb ks).aPrimaryKeyState = kb.aPrimaryKeyState := rfl

theorem refreshKeys_Event_Count (kb : IKeybind) (ks : Nat → IPushButton) :
    (refreshKeys kb ks).Event_Count = kb.Event_Count := rfl

theorem refreshKeys_Key_Count (kb : IKeybind) (ks : Nat → IPushButton) :
    (refreshKeys kb ks).Key_Count = kb.Key_Count := rfl

theorem refreshKeys_occurred (kb : IKeybind) (ks : Nat → IPushButton) (e : Nat) :
    (refreshKeys kb ks).aEventOccurred e = false := rfl

theorem refreshKeys_used_of_clear (kb : IKeybind) (ks : Nat → IPushButton)
    (h : ∀ k, kb.aUsedAsModifier k = false) (k : Nat) :
    (refreshKeys kb ks).aUsedAsModifier k = false := by
  show (if _ ∧ _ then false else kb.aUsedAsModifier k) = false
  split
  · rfl
  · exact h k

/-! ### Claim theorems -/

/-- C1: evaluation of the code at the failing input.  In `kbBug1` key 0 is a
modifier position of event 0 (`aKeybind 0 1 = 0`) and the primary key of
event 1 (`aKeybind 1 0 = 0`).  With both keys held in declaration order, a
single `update` fires event 0 — marking key 0 as used as a modifier — and in
the very same cycle also fires event 1, whose primary key is key 0.  This
contradicts the claimed same-cycle exclusivity (and the code's own comment on
`markModifiersAsUsed`). -/
theorem c1_same_cycle_violation :
    kbBug1.aKeybind 0 1 = 0 ∧ kbBug1.aKeybind 1 0 = 0 ∧
    (update kbBug1 ksBug1).aEventOccurred 0 = true ∧
    (update kbBug1 ksBug1).aUsedAsModifier 0 = true ∧
    (update kbBug1 ksBug1).aEventOccurred 1 = true := by
  exact ⟨by decide, by decide, by decide, by decide, by decide⟩

/-- C3: in the candidate search, when slot `i` is nonempty and has the same
chord length as the current best candidate for its primary key, `i` is
discarded when the primary key's current state does not satisfy `i`'s
required-primary-state bitmask; when it does satisfy it and `i` also passes
the exclusivity and sequence checks, `i` replaces the recorded best
candidate for that primary key. -/
theorem c3_equal_length_tiebreak (kb : IKeybind) (best : Nat → Nat) (i : Nat)
    (hne : kb.aKeybindSize i ≠ 0)
    (hb : best (kb.aKeybind i 0) ≠ 0)
    (hsz : kb.aKeybindSize i = kb.aKeybindSize (best (kb.aKeybind i 0) - 1)) :
    (kb.aPrimaryKeyState i &&& (kb.aKey (kb.aKeybind i 0)).state = 0 →
      searchKeybindStep kb best i = best) ∧
    (kb.aPrimaryKeyState i &&& (kb.aKey (kb.aKeybind i 0)).state ≠ 0 →
      kb.aUsedAsModifier (kb.aKeybind i 0) = false →
      isValidSequence kb i = true →
      searchKeybindStep kb best i =
        fun k => if k = kb.aKeybind i 0 then i + 1 else best k) := by
  have h1 : ¬(isEmptyKeybind kb i = true) := by
    simp [isEmptyKeybind, hne]
  have h2 : ¬(best (kb.aKeybind i 0) ≠ 0 ∧
      kb.aKeybindSize i < kb.aKeybindSize (best (kb.aKeybind i 0) - 1)) := by
    rintro ⟨_, hlt⟩; omega
  constructor
  · intro hmask
    unfold searchKeybindStep
    rw [if_neg h1, if_neg h2, if_pos ⟨hb, hsz, hmask⟩]
  · intro hmask hused hvalid
    unfold searchKeybindStep
    rw [if_neg h1, if_neg h2, if_neg (fun hc => hmask hc.2.2), if_neg (by
      show ¬(isUsedAsModifier kb (kb.aKeybind i 0) = true)
      simp [isUsedAsModifier, hused]), if_pos hvalid]

/-- Witness for C3 at a concrete input: `kbTie` has two single-key
definitions sharing primary key 0, `bestTie` records event 0 as the current
best, and slot 1 is examined. -/
theorem c3_equal_length_tiebreak_witness :
    kbTie.aKeybindSize 1 ≠ 0 ∧ bestTie (kbTie.aKeybind 1 0) ≠ 0 ∧
    kbTie.aKeybindSize 1 = kbTie.aKeybindSize (bestTie (kbTie.aKeybind 1 0) - 1) ∧
    ((kbTie.aPrimaryKeyState 1 &&& (kbTie.aKey (kbTie.aKeybind 1 0)).state = 0 →
      searchKeybindStep kbTie bestTie 1 = bestTie) ∧
     (kbTie.aPrimaryKeyState 1 &&& (kbTie.aKey (kbTie.aKeybind 1 0)).state ≠ 0 →
      kbTie.aUsedAsModifier (kbTie.aKeybind 1 0) = false →
      isValidSequence kbTie 1 = true →
      searchKeybindStep kbTie bestTie 1 =
        fun k => if k = kbTie.aKeybind 1 0 then 1 + 1 else bestTie k)) :=
  ⟨by decide, by decide, by decide,
    c3_equal_length_tiebreak kbTie bestTie 1 (by decide) (by decide) (by decide)⟩

/-- C7: `isEvent` is total — false for every out-of-range index, and exactly
the slot's fired flag for every in-range index; `isAnyEvent` is true iff some
slot's fired flag is set. -/
theorem c7_isEvent_total (kb : IKeybind) (event_idx : Nat) :
    (kb.Event_Count ≤ event_idx → isEvent kb event_idx = false) ∧
    (event_idx < kb.Event_Count → isEvent kb event_idx = kb.aEventOccurred event_idx) ∧
    (isAnyEvent kb = true ↔ ∃ e, e < kb.Event_Count ∧ kb.aEventOccurred e = true) := by
  refine ⟨fun h => ?_, fun h => ?_, ?_⟩
  · simp [isEvent, h]
  · simp [isEvent, Nat.not_le.2 h]
  · unfold isAnyEvent
    rw [List.any_eq_true]
    simp [List.mem_range]

/-- Witness for C7 at a concrete input (`kbQuery` has event capacity 2 and
only slot 0 fired; index 5 is out of range). -/
theorem c7_isEvent_total_witness :
    (kbQuery.Event_Count ≤ 5 → isEvent kbQuery 5 = false) ∧
    (5 < kbQuery.Event_Count → isEvent kbQuery 5 = kbQuery.aEventOccurred 5) ∧
    (isAnyEvent kbQuery = true ↔ ∃ e, e < kbQuery.Event_Count ∧
      kbQuery.aEventOccurred e = true) :=
  c7_isEvent_total kbQuery 5

/-- C8: after `clear`, independent of the prior state, every definition entry
and size is zero, every required-primary-state entry is empty, every fired
flag and every used-as-modifier flag is false, and the managed keys are
unchanged. -/
theorem c8_clear_resets (kb : IKeybind) (e p k : Nat) :
    (clear kb).aKeybind e p = 0 ∧ (clear kb).aKeybindSize e = 0 ∧
    (clear kb).aPrimaryKeyState e = eState.noKey ∧
    (clear kb).aEventOccurred e = false ∧
    (clear kb).aUsedAsModifier k = false ∧ (clear kb).aKey = kb.aKey :=
  ⟨rfl, rfl, rfl, rfl, rfl, rfl⟩

/-- C4: sequence validation accepts exactly when every stored position `j`
from 1 to size-1 is in an active state (`push`, `hold` or `delay`) with press
timestamp at most that of position `j-1`, and the primary key is not in
state `none`; consequently, when some adjacent stored pair has its press
timestamps in reverse of the declaration order, the event cannot fire in
that update cycle even though every key may be active. -/
theorem c4_sequence_validation (kb : IKeybind) (ks : Nat → IPushButton) (e j : Nat)
    (hj1 : 1 ≤ j) (hj2 : j < kb.aKeybindSize e)
    (hrev : (ks (kb.aKeybind e (j - 1))).pushTime < (ks (kb.aKeybind e j)).pushTime) :
    (∀ (kb2 : IKeybind) (e2 : Nat), isValidSequence kb2 e2 = true ↔
      ((∀ j2, 1 ≤ j2 → j2 < kb2.aKeybindSize e2 →
        ((kb2.aKey (kb2.aKeybind e2 j2)).state &&&
            (eState.push ||| eState.hold ||| eState.delay) ≠ 0 ∧
          (kb2.aKey (kb2.aKeybind e2 j2)).pushTime ≤
            (kb2.aKey (kb2.aKeybind e2 (j2 - 1))).pushTime)) ∧
        (kb2.aKey (kb2.aKeybind e2 0)).state ≠ eState.noKey)) ∧
    (update kb ks).aEventOccurred e = false := by
  refine ⟨fun kb2 e2 => isValidSequence_iff kb2 e2, ?_⟩
  by_contra hocc
  rw [Bool.not_eq_false] at hocc
  unfold update at hocc
  rw [searchKeybind_occurred] at hocc
  rcases hocc with h | ⟨t, ht, hbt, hmt⟩
  · rw [refreshKeys_occurred] at h
    exact Bool.noConfusion h
  · have hne : searchPass (refreshKeys kb ks) t ≠ 0 := by omega
    have hv := searchPass_valid (refreshKeys kb ks) t hne
    have he : searchPass (refreshKeys kb ks) t - 1 = e := by omega
    rw [he, isValidSequence_iff, refreshKeys_aKeybindSize, refreshKeys_aKeybind,
      refreshKeys_aKey] at hv
    have := (hv.1 j hj1 hj2).2
    omega

/-- Witness for C4 at a concrete input: in `kbRev` event 0's modifier
(stored position 1) was pressed at tick 7, after the primary (stored
position 0, tick 6); with both keys pushed, the event does not fire. -/
theorem c4_sequence_validation_witness :
    1 ≤ 1 ∧ 1 < kbRev.aKeybindSize 0 ∧
    (ksRev (kbRev.aKeybind 0 0)).pushTime < (ksRev (kbRev.aKeybind 0 1)).pushTime ∧
    ((∀ (kb2 : IKeybind) (e2 : Nat), isValidSequence kb2 e2 = true ↔
      ((∀ j2, 1 ≤ j2 → j2 < kb2.aKeybindSize e2 →
        ((kb2.aKey (kb2.aKeybind e2 j2)).state &&&
            (eState.push ||| eState.hold ||| eState.delay) ≠ 0 ∧
          (kb2.aKey (kb2.aKeybind e2 j2)).pushTime ≤
            (kb2.aKey (kb2.aKeybind e2 (j2 - 1))).pushTime)) ∧
        (kb2.aKey (kb2.aKeybind e2 0)).state ≠ eState.noKey)) ∧
    (update kbRev ksRev).aEventOccurred 0 = false) :=
  ⟨by decide, by decide, by decide,
    c4_sequence_validation kbRev ksRev 0 1 (by decide) (by decide) (by decide)⟩

/-- C2: for a pair of assigned definitions `a` (longer) and `b` (shorter)
that are the only assigned definitions, share the same primary key, and —
after the refresh phase — both have all chord keys active and correctly
ordered (valid sequences) with the primary key satisfying both required
states, and with no stale exclusivity flags, exactly the longer definition's
event fires after `update` (the shorter one's does not, and no other event
fires), and every modifier key of the longer definition gets its
exclusivity flag set. -/
theorem c2_longest_match (kb : IKeybind) (ks : Nat → IPushButton) (a b : Nat)
    (ha : a < kb.Event_Count) (hbe : b < kb.Event_Count) (hab : a ≠ b)
    (hother : ∀ e, e < kb.Event_Count → e ≠ a → e ≠ b → kb.aKeybindSize e = 0)
    (hlen : kb.aKeybindSize b < kb.aKeybindSize a)
    (hbpos : 0 < kb.aKeybindSize b)
    (hp : kb.aKeybind b 0 = kb.aKeybind a 0)
    (hpk : kb.aKeybind a 0 < kb.Key_Count)
    (hused : ∀ k, kb.aUsedAsModifier k = false)
    (hva : isValidSequence (refreshKeys kb ks) a = true)
    (hvb : isValidSequence (refreshKeys kb ks) b = true)
    (hsa : kb.aPrimaryKeyState a &&& (ks (kb.aKeybind a 0)).state ≠ 0)
    (hsb : kb.aPrimaryKeyState b &&& (ks (kb.aKeybind b 0)).state ≠ 0) :
    (update kb ks).aEventOccurred a = true ∧
    (update kb ks).aEventOccurred b = false ∧
    (∀ e, (update kb ks).aEventOccurred e = true → e = a) ∧
    (∀ j, 1 ≤ j → j < kb.aKeybindSize a →
      (update kb ks).aUsedAsModifier (kb.aKeybind a j) = true) := by
  have hu : ∀ k, (refreshKeys kb ks).aUsedAsModifier k = false :=
    refreshKeys_used_of_clear kb ks hused
  have hnonempty : ∀ c : Nat, kb.aKeybindSize c ≠ 0 →
      ¬(isEmptyKeybind (refreshKeys kb ks) c = true) := by
    intro c hc
    simp only [isEmptyKeybind, refreshKeys_aKeybindSize, beq_iff_eq]
    exact hc
  have hstep_first : ∀ c : Nat, kb.aKeybindSize c ≠ 0 →
      isValidSequence (refreshKeys kb ks) c = true →
      searchKeybindStep (refreshKeys kb ks) (fun _ => 0) c =
        fun k => if k = kb.aKeybind c 0 then c + 1 else 0 := by
    intro c hc hvc
    unfold searchKeybindStep
    rw [if_neg (hnonempty c hc)]
    rw [if_neg (by rintro ⟨hne, _⟩; exact hne rfl)]
    rw [if_neg (by rintro ⟨hne, _, _⟩; exact hne rfl)]
    rw [if_neg (by
      show ¬(isUsedAsModifier (refreshKeys kb ks) _ = true)
      unfold isUsedAsModifier
      rw [hu]
      simp)]
    rw [if_pos hvc, refreshKeys_aKeybind]
  have hkey : searchPass (refreshKeys kb ks) (kb.aKeybind a 0) = a + 1 ∧
      ∀ k, k ≠ kb.aKeybind a 0 → searchPass (refreshKeys kb ks) k = 0 := by
    rcases Nat.lt_or_ge a b with hab2 | hge
    · -- a registered first: a wins immediately, b is discarded as shorter
      have hsplit := searchPass_two (refreshKeys kb ks) a b hab2 hbe
        (fun e he hea heb => hother e he hea heb)
      rw [hstep_first a (by omega) hva] at hsplit
      have hbv : (fun k => if k = kb.aKeybind a 0 then a + 1 else 0)
          (kb.aKeybind b 0) = a + 1 := by
        show (if kb.aKeybind b 0 = kb.aKeybind a 0 then a + 1 else 0) = a + 1
        rw [if_pos hp]
      have h2 : searchKeybindStep (refreshKeys kb ks)
          (fun k => if k = kb.aKeybind a 0 then a + 1 else 0) b =
          fun k => if k = kb.aKeybind a 0 then a + 1 else 0 := by
        unfold searchKeybindStep
        rw [if_neg (hnonempty b (by omega))]
        rw [refreshKeys_aKeybind, refreshKeys_aKeybindSize, hbv]
        rw [if_pos ⟨by omega, by simp only [Nat.add_sub_cancel]; exact hlen⟩]
      rw [h2] at hsplit
      constructor
      · rw [hsplit]
        show (if kb.aKeybind a 0 = kb.aKeybind a 0 then a + 1 else 0) = a + 1
        rw [if_pos rfl]
      · intro k hk
        rw [hsplit]
        show (if k = kb.aKeybind a 0 then a + 1 else 0) = 0
        rw [if_neg hk]
    · -- b registered first, then a replaces it as the longer definition
      have hba : b < a := by omega
      have hsplit := searchPass_two (refreshKeys kb ks) b a hba ha
        (fun e he heb hea => hother e he hea heb)
      rw [hstep_first b (by omega) hvb] at hsplit
      have hbv : (fun k => if k = kb.aKeybind b 0 then b + 1 else 0)
          (kb.aKeybind a 0) = b + 1 := by
        show (if kb.aKeybind a 0 = kb.aKeybind b 0 then b + 1 else 0) = b + 1
        rw [if_pos hp.symm]
      have h2 : searchKeybindStep (refreshKeys kb ks)
          (fun k => if k = kb.aKeybind b 0 then b + 1 else 0) a =
          fun k => if k = kb.aKeybind a 0 then a + 1 else
            (fun k2 => if k2 = kb.aKeybind b 0 then b + 1 else 0) k := by
        unfold searchKeybindStep
        rw [if_neg (hnonempty a (by omega))]
        rw [refreshKeys_aKeybind, refreshKeys_aKeybindSize, hbv]
        rw [if_neg (by
          rintro ⟨_, hlt⟩
          simp only [Nat.add_sub_cancel] at hlt
          omega)]
        rw [if_neg (by
          rintro ⟨_, heq, _⟩
          simp only [Nat.add_sub_cancel] at heq
          omega)]
        rw [if_neg (by
          show ¬(isUsedAsModifier (refreshKeys kb ks) _ = true)
          unfold isUsedAsModifier
          rw [hu]
          simp)]
        rw [if_pos hva]
      rw [h2] at hsplit
      constructor
      · rw [hsplit]
        show (if kb.aKeybind a 0 = kb.aKeybind a 0 then a + 1 else _) = a + 1
        rw [if_pos rfl]
      · intro k hk
        rw [hsplit]
        show (if k = kb.aKeybind a 0 then a + 1 else
          if k = kb.aKeybind b 0 then b + 1 else 0) = 0
        rw [if_neg hk, if_neg (fun hc => hk (hc.trans hp))]
  obtain ⟨key1, key2⟩ := hkey
  have hocc : ∀ e, ((update kb ks).aEventOccurred e = true ↔ e = a) := by
    intro e
    unfold update
    rw [searchKeybind_occurred]
    constructor
    · rintro (h | ⟨t, ht, hbt, hmt⟩)
      · rw [refreshKeys_occurred] at h
        exact Bool.noConfusion h
      · by_cases hk : t = kb.aKeybind a 0
        · rw [hk, key1] at hbt
          omega
        · rw [key2 t hk] at hbt
          omega
    · intro he
      rw [he]
      refine Or.inr ⟨kb.aKeybind a 0, hpk, key1, ?_⟩
      rw [refreshKeys_aPrimaryKeyState, refreshKeys_aKey]
      exact hsa
  refine ⟨(hocc a).2 rfl, ?_, fun e he => (hocc e).1 he, ?_⟩
  · rcases Bool.eq_false_or_eq_true ((update kb ks).aEventOccurred b) with h | h
    · exact absurd ((hocc b).1 h).symm hab
    · exact h
  · intro j hj1 hj2
    unfold update
    rw [searchKeybind_used]
    refine Or.inr ⟨kb.aKeybind a 0, hpk, ?_, ?_, j, hj1, ?_, ?_⟩
    · rw [key1]
      omega
    · rw [key1]
      simp only [Nat.add_sub_cancel]
      rw [refreshKeys_aPrimaryKeyState, refreshKeys_aKey]
      exact hsa
    · rw [key1]
      simp only [Nat.add_sub_cancel]
      rw [refreshKeys_aKeybindSize]
      exact hj2
    · rw [key1]
      simp only [Nat.add_sub_cancel]
      rw [refreshKeys_aKeybind]

/-- C9 (counterexample to the claim as stated): in `kbFlag`/`ksFlag`, key 0's
refreshed state is `push` (neither `none` nor containing the `idle` bit) and
its used-as-modifier flag is false before the cycle, yet after `update()` the
flag is true — the value is not carried over unchanged, because chord
resolution marks key 0 as a modifier of the event that fires this cycle. -/
theorem c9_carryover_counterexample :
    (ksFlag 0).state ≠ eState.noKey ∧ (ksFlag 0).state &&& eState.idle = 0 ∧
    kbFlag.aUsedAsModifier 0 = false ∧
    (update kbFlag ksFlag).aUsedAsModifier 0 = true :=
  ⟨by decide, by decide, by decide, by decide⟩

/-- C9 (amended): the refresh phase of `update` clears a key's
used-as-modifier flag iff the key's refreshed state is `none` or includes the
`idle` bit, and otherwise carries the flag over unchanged; after the full
`update`, a key's flag is set iff it survived that decay or the key is a
modifier position of some event that fired in this cycle. -/
theorem c9_flag_decay_and_marking (kb : IKeybind) (ks : Nat → IPushButton) :
    (∀ i, i < kb.Key_Count →
      (refreshKeys kb ks).aUsedAsModifier i =
        if (ks i).state = eState.noKey ∨ (ks i).state &&& eState.idle ≠ 0 then false
        else kb.aUsedAsModifier i) ∧
    (∀ k, ((update kb ks).aUsedAsModifier k = true ↔
      ((refreshKeys kb ks).aUsedAsModifier k = true ∨
        ∃ e, (update kb ks).aEventOccurred e = true ∧
          ∃ j, 1 ≤ j ∧ j < kb.aKeybindSize e ∧ kb.aKeybind e j = k))) := by
  constructor
  · intro i hi
    show (if i < kb.Key_Count ∧
        ((ks i).state = eState.noKey ∨ (ks i).state &&& eState.idle ≠ 0) then false
      else kb.aUsedAsModifier i) = _
    by_cases hc : (ks i).state = eState.noKey ∨ (ks i).state &&& eState.idle ≠ 0
    · rw [if_pos ⟨hi, hc⟩, if_pos hc]
    · rw [if_neg (fun hh => hc hh.2), if_neg hc]
  · intro k
    unfold update
    rw [searchKeybind_used]
    constructor
    · rintro (h | ⟨t, ht, hbt, hmt, j, hj1, hj2, hjk⟩)
      · exact Or.inl h
      · right
        refine ⟨searchPass (refreshKeys kb ks) t - 1, ?_, j, hj1, ?_, ?_⟩
        · rw [searchKeybind_occurred]
          exact Or.inr ⟨t, ht, by omega, hmt⟩
        · rw [refreshKeys_aKeybindSize] at hj2
          exact hj2
        · rw [refreshKeys_aKeybind] at hjk
          exact hjk
    · rintro (h | ⟨e, he, j, hj1, hj2, hjk⟩)
      · exact Or.inl h
      · rw [searchKeybind_occurred] at he
        rcases he with h0 | ⟨t, ht, hbt, hmt⟩
        · rw [refreshKeys_occurred] at h0
          exact Bool.noConfusion h0
        · right
          have hte : searchPass (refreshKeys kb ks) t - 1 = e := by omega
          refine ⟨t, ht, by omega, ?_, j, hj1, ?_, ?_⟩
          · rw [hte]
            exact hmt
          · rw [hte, refreshKeys_aKeybindSize]
            exact hj2
          · rw [hte, refreshKeys_aKeybind]
            exact hjk

/-- Witness for C9's amended theorem at the concrete input `kbFlag`/`ksFlag`. -/
theorem c9_flag_decay_and_marking_witness :
    (∀ i, i < kbFlag.Key_Count →
      (refreshKeys kbFlag ksFlag).aUsedAsModifier i =
        if (ksFlag i).state = eState.noKey ∨ (ksFlag i).state &&& eState.idle ≠ 0
        then false else kbFlag.aUsedAsModifier i) ∧
    (∀ k, ((update kbFlag ksFlag).aUsedAsModifier k = true ↔
      ((refreshKeys kbFlag ksFlag).aUsedAsModifier k = true ∨
        ∃ e, (update kbFlag ksFlag).aEventOccurred e = true ∧
          ∃ j, 1 ≤ j ∧ j < kbFlag.aKeybindSize e ∧ kbFlag.aKeybind e j = k))) :=
  c9_flag_decay_and_marking kbFlag ksFlag

/-- Witness for C2: the §8 concrete instance.  Event 0 = [10, 20] (length 2),
event 1 = [20] (length 1), both requiring `push` on key 20; key 10 pressed at
tick 5, key 20 at tick 6, both still pushed.  Event 0 fires, event 1 does
not, and key 10's (storage index 0) exclusivity flag is set. -/
theorem c2_longest_match_witness :
    kbSpec8.aKeybindSize 1 < kbSpec8.aKeybindSize 0 ∧
    kbSpec8.aKeybind 1 0 = kbSpec8.aKeybind 0 0 ∧
    (update kbSpec8 ksSpec8).aEventOccurred 0 = true ∧
    (update kbSpec8 ksSpec8).aEventOccurred 1 = false ∧
    (update kbSpec8 ksSpec8).aUsedAsModifier 0 = true := by
  have h := c2_longest_match kbSpec8 ksSpec8 0 1 (by decide) (by decide) (by decide)
    (by decide) (by decide) (by decide) (by decide) (by decide) (fun k => rfl)
    (by decide) (by decide) (by decide) (by decide)
  exact ⟨by decide, by decide, h.1, h.2.1, h.2.2.2 1 (by decide) (by decide)⟩

/-- C5: after a successful `assign` of a sequence of length L, the slot's
size is L, its required primary state is the supplied state, and stored
position `p` holds the storage index found by the key lookup for the id at
input position L-1-p (so the sequence is stored reversed and position 0
holds the last-supplied, primary id). -/
theorem c5_assign_stores_reversed (kb : IKeybind) (event_idx : Nat)
    (key_id : List Nat) (key_state : Nat) (kb2 : IKeybind)
    (h : assign kb event_idx key_id key_state = (none, kb2)) :
    kb2.aKeybindSize event_idx = key_id.length ∧
    kb2.aPrimaryKeyState event_idx = key_state ∧
    ∀ p, p < key_id.length →
      findKeyIdx kb (key_id.getD (key_id.length - 1 - p) 0) =
        some (kb2.aKeybind event_idx p) := by
  unfold assign at h
  by_cases h1 : kb.Event_Count ≤ event_idx
  · rw [if_pos h1] at h
    exact absurd (congrArg Prod.fst h) (fun hc => Option.noConfusion hc)
  rw [if_neg h1] at h
  by_cases h2 : kb.Keybind_Max < key_id.length
  · rw [if_pos h2] at h
    exact absurd (congrArg Prod.fst h) (fun hc => Option.noConfusion hc)
  rw [if_neg h2] at h
  rcases hA : assignIds event_idx key_id.length key_id 0 kb with ⟨fst, snd⟩
  rw [hA] at h
  cases fst with
  | some err =>
    have h3 : (some err : Option AssignError) = none := congrArg Prod.fst h
    exact absurd h3 (fun hc => Option.noConfusion hc)
  | none =>
    have h4 : ({ snd with
        aPrimaryKeyState := fun e =>
          if e = event_idx then key_state else snd.aPrimaryKeyState e,
        aKeybindSize := fun e =>
          if e = event_idx then key_id.length else snd.aKeybindSize e } : IKeybind)
        = kb2 := congrArg Prod.snd h
    refine ⟨?_, ?_, ?_⟩
    · rw [← h4]
      show (if event_idx = event_idx then key_id.length else _) = key_id.length
      rw [if_pos rfl]
    · rw [← h4]
      show (if event_idx = event_idx then key_state else _) = key_state
      rw [if_pos rfl]
    · intro p hp
      have h6 := assignIds_success_getD event_idx key_id.length key_id 0 kb snd
        (by omega) hA (key_id.length - 1 - p) (by omega)
      have h7 : key_id.length - (0 + (key_id.length - 1 - p)) - 1 = p := by omega
      rw [h7] at h6
      rw [← h4]
      exact h6

/-- Witness for C5 at a concrete input: assigning [10, 20] to slot 0 of
`kbAssign` succeeds; the stored slot has size 2, and position 0 holds the
index of key id 20 (the last-supplied, primary id). -/
theorem c5_assign_stores_reversed_witness :
    (assign kbAssign 0 [10, 20] eState.push).2.aKeybindSize 0 =
      ([10, 20] : List Nat).length ∧
    (assign kbAssign 0 [10, 20] eState.push).2.aPrimaryKeyState 0 = eState.push ∧
    ∀ p, p < ([10, 20] : List Nat).length →
      findKeyIdx kbAssign (([10, 20] : List Nat).getD
          (([10, 20] : List Nat).length - 1 - p) 0) =
        some ((assign kbAssign 0 [10, 20] eState.push).2.aKeybind 0 p) :=
  c5_assign_stores_reversed kbAssign 0 [10, 20] eState.push
    ((assign kbAssign 0 [10, 20] eState.push).2) rfl

/-- C6: `assign` signals out-of-range iff the event index is at least the
event capacity or the sequence is longer than the maximum chord length; when
the bounds hold it signals invalid-argument iff some supplied id matches no
managed key's identifier; and when additionally every id has a matching key
it succeeds. -/
theorem c6_assign_error_conditions (kb : IKeybind) (event_idx : Nat)
    (key_id : List Nat) (key_state : Nat) :
    ((assign kb event_idx key_id key_state).1 = some AssignError.outOfRange ↔
      (kb.Event_Count ≤ event_idx ∨ kb.Keybind_Max < key_id.length)) ∧
    (event_idx < kb.Event_Count → key_id.length ≤ kb.Keybind_Max →
      ((assign kb event_idx key_id key_state).1 = some AssignError.invalidArgument ↔
        ∃ kid ∈ key_id, ∀ j, j < kb.Key_Count → (kb.aKey j).id ≠ kid)) ∧
    (event_idx < kb.Event_Count → key_id.length ≤ kb.Keybind_Max →
      (∀ kid ∈ key_id, ∃ j, j < kb.Key_Count ∧ (kb.aKey j).id = kid) →
      (assign kb event_idx key_id key_state).1 = none) := by
  by_cases h1 : kb.Event_Count ≤ event_idx
  · refine ⟨?_, fun hc => absurd hc (by omega), fun hc => absurd hc (by omega)⟩
    unfold assign
    rw [if_pos h1]
    simp [h1]
  · by_cases h2 : kb.Keybind_Max < key_id.length
    · refine ⟨?_, fun _ hc => absurd hc (by omega), fun _ hc => absurd hc (by omega)⟩
      unfold assign
      rw [if_neg h1, if_pos h2]
      simp [h2]
    · have hfst : (assign kb event_idx key_id key_state).1 =
          (assignIds event_idx key_id.length key_id 0 kb).1 := by
        unfold assign
        rw [if_neg h1, if_neg h2]
        rcases hA : assignIds event_idx key_id.length key_id 0 kb with ⟨fst, snd⟩
        cases fst <;> rfl
      refine ⟨?_, ?_, ?_⟩
      · rw [hfst]
        constructor
        · intro hc
          rcases hB : assignIds event_idx key_id.length key_id 0 kb with ⟨fst, snd⟩
          rw [hB] at hc
          have hc2 : fst = some AssignError.outOfRange := hc
          obtain ⟨herr, _⟩ := assignIds_fail event_idx key_id.length key_id 0 kb snd
            AssignError.outOfRange (by omega) (by rw [hB, hc2])
          exact absurd herr (by decide)
        · rintro (hc | hc)
          · exact absurd hc h1
          · exact absurd hc h2
      · intro _ _
        rw [hfst]
        constructor
        · intro hc
          by_contra hno
          push_neg at hno
          have hnone : (assignIds event_idx key_id.length key_id 0 kb).1 = none := by
            rw [assignIds_none_iff]
            intro kid hkid hfn
            rw [findKeyIdx_eq_none_iff] at hfn
            obtain ⟨j, hj, hjid⟩ := hno kid hkid
            exact hfn j hj hjid
          rw [hnone] at hc
          exact Option.noConfusion hc
        · rintro ⟨kid, hkid, hbad⟩
          have hfn : findKeyIdx kb kid = none := (findKeyIdx_eq_none_iff kb kid).2 hbad
          have hnn : ¬((assignIds event_idx key_id.length key_id 0 kb).1 = none) := by
            rw [assignIds_none_iff]
            intro hall
            exact hall kid hkid hfn
          rcases hB : assignIds event_idx key_id.length key_id 0 kb with ⟨fst, snd⟩
          cases fst with
          | none => rw [hB] at hnn; exact absurd rfl hnn
          | some err =>
            obtain ⟨herr, _⟩ := assignIds_fail event_idx key_id.length key_id 0 kb snd
              err (by omega) hB
            show some err = some AssignError.invalidArgument
            rw [herr]
      · intro _ _ hall
        rw [hfst, assignIds_none_iff]
        intro kid hkid hfn
        rw [findKeyIdx_eq_none_iff] at hfn
        obtain ⟨j, hj, hjid⟩ := hall kid hkid
        exact hfn j hj hjid

/-- Witness for C6 at a concrete input: id 99 matches no key of `kbAssign`,
so assigning [10, 99] within bounds signals invalid-argument. -/
theorem c6_assign_error_conditions_witness :
    ((assign kbAssign 0 [10, 99] eState.push).1 = some AssignError.outOfRange ↔
      (kbAssign.Event_Count ≤ 0 ∨ kbAssign.Keybind_Max < ([10, 99] : List Nat).length)) ∧
    (0 < kbAssign.Event_Count → ([10, 99] : List Nat).length ≤ kbAssign.Keybind_Max →
      ((assign kbAssign 0 [10, 99] eState.push).1 = some AssignError.invalidArgument ↔
        ∃ kid ∈ ([10, 99] : List Nat), ∀ j, j < kbAssign.Key_Count →
          (kbAssign.aKey j).id ≠ kid)) ∧
    (0 < kbAssign.Event_Count → ([10, 99] : List Nat).length ≤ kbAssign.Keybind_Max →
      (∀ kid ∈ ([10, 99] : List Nat), ∃ j, j < kbAssign.Key_Count ∧
        (kbAssign.aKey j).id = kid) →
      (assign kbAssign 0 [10, 99] eState.push).1 = none) :=
  c6_assign_error_conditions kbAssign 0 [10, 99] eState.push

/-- C10: when `assign` fails with invalid-argument, every slot's size and
required-primary-state entry keep their prior values, other slots' index
arrays are untouched, and in the target slot only the positions written for
the ids preceding the first failing one (the topmost `m` positions below the
sequence length) can differ — positions below `length - m` and positions at
or above `length` are unchanged.  In particular a slot that held a valid
definition of size s > 0 still reports size s. -/
theorem c10_failed_assign_retains_slot (kb : IKeybind) (event_idx : Nat)
    (key_id : List Nat) (key_state : Nat) (kb2 : IKeybind)
    (h : assign kb event_idx key_id key_state =
      (some AssignError.invalidArgument, kb2)) :
    (∀ e, kb2.aKeybindSize e = kb.aKeybindSize e) ∧
    (∀ e, kb2.aPrimaryKeyState e = kb.aPrimaryKeyState e) ∧
    (∀ e p, e ≠ event_idx → kb2.aKeybind e p = kb.aKeybind e p) ∧
    ∃ m, m < key_id.length ∧ findKeyIdx kb (key_id.getD m 0) = none ∧
      (∀ p, p < key_id.length - m → kb2.aKeybind event_idx p = kb.aKeybind event_idx p) ∧
      (∀ p, key_id.length ≤ p → kb2.aKeybind event_idx p = kb.aKeybind event_idx p) := by
  unfold assign at h
  by_cases h1 : kb.Event_Count ≤ event_idx
  · rw [if_pos h1] at h
    have h9 : (some AssignError.outOfRange : Option AssignError) =
        some AssignError.invalidArgument := congrArg Prod.fst h
    exact absurd h9 (by decide)
  rw [if_neg h1] at h
  by_cases h2 : kb.Keybind_Max < key_id.length
  · rw [if_pos h2] at h
    have h9 : (some AssignError.outOfRange : Option AssignError) =
        some AssignError.invalidArgument := congrArg Prod.fst h
    exact absurd h9 (by decide)
  rw [if_neg h2] at h
  rcases hA : assignIds event_idx key_id.length key_id 0 kb with ⟨fst, snd⟩
  rw [hA] at h
  cases fst with
  | none =>
    have h9 : (none : Option AssignError) = some AssignError.invalidArgument :=
      congrArg Prod.fst h
    exact absurd h9 (by decide)
  | some err =>
    have hsnd : snd = kb2 := congrArg Prod.snd h
    have hsz : snd.aKeybindSize = kb.aKeybindSize := by
      have h5 := (assignIds_pres event_idx key_id.length key_id 0 kb).2.2.2.2.1
      rw [hA] at h5
      exact h5
    have hpst : snd.aPrimaryKeyState = kb.aPrimaryKeyState := by
      have h5 := (assignIds_pres event_idx key_id.length key_id 0 kb).2.2.2.2.2.1
      rw [hA] at h5
      exact h5
    obtain ⟨herr, m, hm, hfind, hoff, hlow, hhigh⟩ :=
      assignIds_fail event_idx key_id.length key_id 0 kb snd err (by omega) hA
    subst hsnd
    refine ⟨fun e => congrFun hsz e, fun e => congrFun hpst e,
      fun e p he => hoff e p he, m, hm, hfind,
      fun p hp => hlow p (by omega), fun p hp => hhigh p (by omega)⟩

/-- Witness for C10 at a concrete input: slot 0 of `kbAssign` holds a valid
size-1 definition; assigning [10, 99] fails on id 99 after writing only
position 1, so the slot still reports size 1 and position 0 is unchanged. -/
theorem c10_failed_assign_retains_slot_witness :
    (∀ e, (assign kbAssign 0 [10, 99] eState.push).2.aKeybindSize e =
      kbAssign.aKeybindSize e) ∧
    (∀ e, (assign kbAssign 0 [10, 99] eState.push).2.aPrimaryKeyState e =
      kbAssign.aPrimaryKeyState e) ∧
    (∀ e p, e ≠ 0 → (assign kbAssign 0 [10, 99] eState.push).2.aKeybind e p =
      kbAssign.aKeybind e p) ∧
    ∃ m, m < ([10, 99] : List Nat).length ∧
      findKeyIdx kbAssign (([10, 99] : List Nat).getD m 0) = none ∧
      (∀ p, p < ([10, 99] : List Nat).length - m →
        (assign kbAssign 0 [10, 99] eState.push).2.aKeybind 0 p =
          kbAssign.aKeybind 0 p) ∧
      (∀ p, ([10, 99] : List Nat).length ≤ p →
        (assign kbAssign 0 [10, 99] eState.push).2.aKeybind 0 p =
          kbAssign.aKeybind 0 p) :=
  c10_failed_assign_retains_slot kbAssign 0 [10, 99] eState.push
    ((assign kbAssign 0 [10, 99] eState.push).2) rfl
